import Mathlib

/-!
Shallow embedding of the StarTrack F1 Circuit Geometry Engine.

The JavaScript sources keep their numeric work in the `GeometryEngine`
module (haversine distance, local projection, circuit length, geometry
validation, accuracy placeholder), in the main App component
(`checkCircuitComplete`, `calculateRadius`, `buildSegments`), and in two
CircuitEditor variants (`isLoopClosed` and two `getSplinePoints`
implementations).

Machine floats are modelled by an arbitrary linear ordered field `α`
(exact arithmetic).  The JavaScript `Math` object is an external library,
so it is embedded as an explicit record of functions `JsMathLib α`; the
repository's own formulas, thresholds and control flow are translated
verbatim.  Theorems either quantify over every math library (when the
property does not depend on it) or instantiate the record with the real
functions `Real.sin`, `Real.cos`, `Real.sqrt` and `atan2 = Complex.arg`.
-/

/-- A planar point `{x, y}` as used by the canvas-mode code paths. -/
structure Pt (α : Type) where
  x : α
  y : α
deriving DecidableEq

/-- A raw control point as the JS code sees it: either geodetic `{lat, lng}`
or planar `{x, y}` (the source branches on the presence of a `lat` field). -/
inductive JsPoint (α : Type) where
  | geo (lat lng : α)
  | xy (x y : α)
deriving DecidableEq

/-- The slice of the JavaScript `Math` object used by the engine.  It is an
external library, so it enters the embedding as explicit data; theorems
quantify over it or instantiate it with the real functions. -/
structure JsMathLib (α : Type) where
  pi : α
  sqrt : α → α
  sin : α → α
  cos : α → α
  atan2 : α → α → α
  hypot : α → α → α

/-- A computable rational stand-in for the JS `Math` object.  It is used only
to instantiate theorems (which quantify over every math library) at concrete
inputs inside witnesses and counterexamples whose outcome does not depend on
the math functions at all. -/
def qMath : JsMathLib ℚ :=
  ⟨180, fun a => a, fun a => a, fun a => a, fun _ _ => 0, fun a b => a + b⟩

section Engine

variable {α : Type} [LinearOrderedField α]

/-- `GeometryEngine.getDistanceMeters` — haversine distance with Earth radius
6 371 000 m, translated from `GeometryEngine.js`. -/
def getDistanceMeters (M : JsMathLib α) (lat1 lon1 lat2 lon2 : α) : α :=
  let dLat := (lat2 - lat1) * M.pi / 180
  let dLon := (lon2 - lon1) * M.pi / 180
  let a := M.sin (dLat / 2) * M.sin (dLat / 2) +
    M.cos (lat1 * M.pi / 180) * M.cos (lat2 * M.pi / 180) *
    M.sin (dLon / 2) * M.sin (dLon / 2)
  let c := 2 * M.atan2 (M.sqrt a) (M.sqrt (1 - a))
  6371000 * c

/-- `GeometryEngine.latLonToMeters` — projects a geodetic point to XY meters
relative to an origin, with signs taken from coordinate comparisons. -/
def latLonToMeters (M : JsMathLib α) (lat lon originLat originLon : α) : Pt α :=
  let x := getDistanceMeters M originLat originLon originLat lon
  let y := getDistanceMeters M originLat originLon lat originLon
  ⟨if originLon < lon then x else -x, if originLat < lat then y else -y⟩

/-- `GeometryEngine.calculateCircuitLength` — sum of consecutive-point
`Math.hypot` distances (the loop-closing line is commented out in source). -/
def calculateCircuitLength (M : JsMathLib α) (points : List (Pt α)) : α :=
  (points.zip points.tail).foldl
    (fun len pq => len + M.hypot (pq.2.x - pq.1.x) (pq.2.y - pq.1.y)) 0

/-- `GeometryEngine.calculateAccuracyScore` — the placeholder
`85 + Math.random() * 10`; the random draw is made explicit as `r`. -/
def calculateAccuracyScore (r : α) (drawnPoints referencePoints : List (Pt α)) : α :=
  85 + r * 10

/-- An issue object `{type, message, index?}` pushed by `validateGeometry`
(the two length warnings carry no `index` field, modelled as `none`). -/
structure VGIssue where
  type : String
  message : String
  index : Option Nat
deriving DecidableEq

/-- The `stats` object of `validateGeometry` (`sharpestTurn` is initialised
to 180 and never updated by the source). -/
structure VGStats (α : Type) where
  totalLength : α
  sharpestTurn : α
  longestStraight : α
deriving DecidableEq

/-- The report `{isValid, issues, stats}` returned by `validateGeometry`. -/
structure VGReport (α : Type) where
  isValid : Bool
  issues : List VGIssue
  stats : VGStats α
deriving DecidableEq

/-- The mutable loop state of `validateGeometry`'s walk over the points. -/
structure VGState (α : Type) where
  totalLength : α
  currentStraight : α
  longestStraight : α
  issues : List VGIssue
deriving DecidableEq

/-- Distance between `points[i-1]` and `points[i]` as computed inside the
`validateGeometry` loop (`Math.hypot` of the coordinate differences). -/
def vgDist (M : JsMathLib α) (points : List (Pt α)) (i : ℕ) : α :=
  let p := points.getD (i - 1) ⟨0, 0⟩
  let q := points.getD i ⟨0, 0⟩
  M.hypot (q.x - p.x) (q.y - p.y)

/-- The turn angle `diff` computed by `validateGeometry` at interior point
`i`: absolute heading difference in degrees, wrapped to `[0, 180]`. -/
def turnDiff (M : JsMathLib α) (points : List (Pt α)) (i : ℕ) : α :=
  let p1 := points.getD (i - 2) ⟨0, 0⟩
  let p2 := points.getD (i - 1) ⟨0, 0⟩
  let p3 := points.getD i ⟨0, 0⟩
  let angle1 := M.atan2 (p2.y - p1.y) (p2.x - p1.x)
  let angle2 := M.atan2 (p3.y - p2.y) (p3.x - p2.x)
  let d := |angle1 - angle2| * 180 / M.pi
  if 180 < d then 360 - d else d

/-- The (at most one) turn issue `validateGeometry` pushes at loop index `i`:
critical above 160 degrees, hairpin warning above 120 degrees, only for
`i > 1`. -/
def vgIssueAt (M : JsMathLib α) (points : List (Pt α)) (i : ℕ) : Option VGIssue :=
  if i ≤ 1 then none
  else
    let d := turnDiff M points i
    if 160 < d then
      some ⟨"critical", "Impossible sharp turn at point " ++ toString i, some i⟩
    else if 120 < d then
      some ⟨"warning", "Very tight hairpin at point " ++ toString i, some i⟩
    else none

/-- One iteration of the `validateGeometry` loop body at index `i`. -/
def vgStep (M : JsMathLib α) (points : List (Pt α)) (st : VGState α) (i : ℕ) :
    VGState α :=
  let dist := vgDist M points i
  let tl := st.totalLength + dist
  if 1 < i then
    let issues := st.issues ++ (vgIssueAt M points i).toList
    if turnDiff M points i < 2 then
      ⟨tl, st.currentStraight + dist, st.longestStraight, issues⟩
    else
      ⟨tl, 0, max st.longestStraight st.currentStraight, issues⟩
  else
    ⟨tl, st.currentStraight + dist, st.longestStraight, st.issues⟩

/-- The total length `validateGeometry` accumulates: the sum of the
consecutive-point distances. -/
def totalLen (M : JsMathLib α) (points : List (Pt α)) : α :=
  ((List.range' 1 (points.length - 1)).map (vgDist M points)).sum

/-- The warning object pushed when the track is shorter than 3000 m. -/
def tooShortIssue : VGIssue :=
  ⟨"warning", "Track too short for F1 standards (<3km)", none⟩

/-- The warning object pushed when the track is longer than 8000 m. -/
def tooLongIssue : VGIssue :=
  ⟨"warning", "Track too long for F1 standards (>8km)", none⟩

/-- `GeometryEngine.validateGeometry` — walks indices `1 .. points.length-1`,
then appends the two length warnings; `isValid` is `issues.length === 0`.
The `closed` parameter is declared (default `false` in source) but never
read by the function body. -/
def validateGeometry (M : JsMathLib α) (points : List (Pt α)) (closed : Bool) :
    VGReport α :=
  let st := (List.range' 1 (points.length - 1)).foldl (vgStep M points) ⟨0, 0, 0, []⟩
  let issues := st.issues
    ++ (if st.totalLength < 3000 then [tooShortIssue] else [])
    ++ (if 8000 < st.totalLength then [tooLongIssue] else [])
  ⟨issues.length == 0, issues, ⟨st.totalLength, 180, st.longestStraight⟩⟩

/-- `checkCircuitComplete` from the main App: fewer than 3 points is never
closed; geodetic first/last points use the haversine distance with a 40 m
tolerance, planar ones `Math.hypot` with 30 px.  A mixed first/last pair
makes the JS comparison `NaN < tol`, which is `false`. -/
def checkCircuitComplete (M : JsMathLib α) (points : List (JsPoint α)) : Bool :=
  if points.length < 3 then false
  else
    match points.getD 0 (.xy 0 0), points.getD (points.length - 1) (.xy 0 0) with
    | .geo flat flng, .geo llat llng =>
        decide (getDistanceMeters M flat flng llat llng < 40)
    | .xy fx fy, .xy lx ly => decide (M.hypot (fx - lx) (fy - ly) < 30)
    | _, _ => false

/-- `isLoopClosed` from the second CircuitEditor variant: planar first/last
distance below 30, `false` under 3 points. -/
def isLoopClosed (M : JsMathLib α) (pts : List (Pt α)) : Bool :=
  if pts.length < 3 then false
  else
    let first := pts.getD 0 ⟨0, 0⟩
    let last := pts.getD (pts.length - 1) ⟨0, 0⟩
    decide (M.hypot (first.x - last.x) (first.y - last.y) < 30)

/-- The circumcircle determinant `D` of `calculateRadius`. -/
def circumD (p1 p2 p3 : Pt α) : α :=
  2 * (p1.x * (p2.y - p3.y) + p2.x * (p3.y - p1.y) + p3.x * (p1.y - p2.y))

/-- `calculateRadius` from the main App: circumscribed-circle radius of three
points, capped at 1000; a determinant with `|D| < 1e-5` short-circuits to 0
before the divisions by `D` are reached. -/
def calculateRadius (M : JsMathLib α) (p1 p2 p3 : Pt α) : α :=
  let D := circumD p1 p2 p3
  if |D| < 1 / 100000 then 0
  else
    let ux := ((p1.x ^ 2 + p1.y ^ 2) * (p2.y - p3.y) + (p2.x ^ 2 + p2.y ^ 2) * (p3.y - p1.y) +
      (p3.x ^ 2 + p3.y ^ 2) * (p1.y - p2.y)) / D
    let uy := ((p1.x ^ 2 + p1.y ^ 2) * (p3.x - p2.x) + (p2.x ^ 2 + p2.y ^ 2) * (p1.x - p3.x) +
      (p3.x ^ 2 + p3.y ^ 2) * (p2.x - p1.x)) / D
    min (M.hypot (p1.x - ux) (p1.y - uy)) 1000

/-- A track segment `{id, type, length, radius}` handed to the simulator. -/
structure Segment (α : Type) where
  id : String
  type : String
  length : α
  radius : α
deriving DecidableEq

/-- The segment `buildSegments` creates at loop index `i`: length of the pair
`(points[i-1], points[i])`, radius from the triple starting at
`max(0, i-2)` (natural subtraction), corner iff `0 < radius < 500`. -/
def segAt (M : JsMathLib α) (meterPoints : List (Pt α)) (i : ℕ) : Segment α :=
  let pPrev := meterPoints.getD (i - 1) ⟨0, 0⟩
  let pCurr := meterPoints.getD i ⟨0, 0⟩
  let dist := M.hypot (pCurr.x - pPrev.x) (pCurr.y - pPrev.y)
  let radius := calculateRadius M (meterPoints.getD (i - 2) ⟨0, 0⟩) pPrev pCurr
  if 0 < radius ∧ radius < 500 then ⟨"seg-" ++ toString i, "corner", dist, radius⟩
  else ⟨"seg-" ++ toString i, "straight", dist, 0⟩

/-- `buildSegments` from the main App, after the optional lat/lon projection
has produced planar meter points: empty below 2 points, else one segment per
index `1 .. length-1`. -/
def buildSegments (M : JsMathLib α) (meterPoints : List (Pt α)) : List (Segment α) :=
  if meterPoints.length < 2 then []
  else (List.range' 1 (meterPoints.length - 1)).map (segAt M meterPoints)

/-- A sample point of the Catmull-Rom generator in the CircuitEditor
variants: position, tangent, heading and speed factor.  The sample emitted
for an open path's final control point has no `dx`/`dy` in the JS object;
those fields are modelled as 0 (no claim observes them). -/
structure SplinePoint (α : Type) where
  x : α
  y : α
  dx : α
  dy : α
  angle : α
  speed : α
deriving DecidableEq

/-- Position and tangent of the cubic Catmull-Rom basis at parameter `st`,
exactly as expanded in both `getSplinePoints` variants. -/
def catmullEval (p0 p1 p2 p3 : Pt α) (st : α) : α × α × α × α :=
  let tt := st * st
  let ttt := tt * st
  let q0 := -ttt + 2 * tt - st
  let q1 := 3 * ttt - 5 * tt + 2
  let q2 := -3 * ttt + 4 * tt + st
  let q3 := ttt - st
  let x := (1 / 2) * (p0.x * q0 + p1.x * q1 + p2.x * q2 + p3.x * q3)
  let y := (1 / 2) * (p0.y * q0 + p1.y * q1 + p2.y * q2 + p3.y * q3)
  let dq0 := -3 * tt + 4 * st - 1
  let dq1 := 9 * tt - 10 * st
  let dq2 := -9 * tt + 8 * st + 1
  let dq3 := 3 * tt - 1
  let dx := (1 / 2) * (p0.x * dq0 + p1.x * dq1 + p2.x * dq2 + p3.x * dq3)
  let dy := (1 / 2) * (p0.y * dq0 + p1.y * dq1 + p2.y * dq2 + p3.y * dq3)
  (x, y, dx, dy)

/-- The padded control-point array `pts` built at the top of the first
`getSplinePoints` variant: wrap-around padding for closed loops, endpoint
duplication for open paths. -/
def splineControl (points : List (Pt α)) (closed : Bool) : List (Pt α) :=
  if closed then
    [points.getD (points.length - 2) ⟨0, 0⟩, points.getD (points.length - 1) ⟨0, 0⟩]
      ++ points ++ [points.getD 0 ⟨0, 0⟩, points.getD 1 ⟨0, 0⟩]
  else
    [points.getD 0 ⟨0, 0⟩] ++ points ++ [points.getD (points.length - 1) ⟨0, 0⟩]

/-- One span of the first `getSplinePoints` variant: the Catmull-Rom samples
for control points `pts[i-1] .. pts[i+2]`, subdivided `segments` times; the
`speed` field is not yet assigned (placeholder 0, overwritten by the speed
pass). -/
def splineSpan (M : JsMathLib α) (pts : List (Pt α)) (segments : ℕ) (i : ℕ) :
    List (SplinePoint α) :=
  (List.range segments).map (fun (t : ℕ) =>
    let e := catmullEval (pts.getD (i - 1) ⟨0, 0⟩) (pts.getD i ⟨0, 0⟩)
      (pts.getD (i + 1) ⟨0, 0⟩) (pts.getD (i + 2) ⟨0, 0⟩) ((t : α) / (segments : α))
    ⟨e.1, e.2.1, e.2.2.1, e.2.2.2, M.atan2 e.2.2.2 e.2.2.1, 0⟩)

/-- The raw sample list of the first `getSplinePoints` variant: spans
`i = 1 .. pts.length-3` over the padded control points. -/
def splineRaw (M : JsMathLib α) (points : List (Pt α)) (segments : ℕ) (closed : Bool) :
    List (SplinePoint α) :=
  let pts := splineControl points closed
  (List.range' 1 (pts.length - 3)).flatMap (splineSpan M pts segments)

/-- The wrapped absolute heading difference of the speed pass: `|a1 − a2|`,
folded back below `Math.PI` when it exceeds it. -/
def wrapDiff (M : JsMathLib α) (a1 a2 : α) : α :=
  if M.pi < |a1 - a2| then 2 * M.pi - |a1 - a2| else |a1 - a2|

/-- The curvature the speed pass computes at sample `i`: ten times the
wrapped heading difference of the neighbouring tangents, 0 at the ends. -/
def splineCurvatureAt (M : JsMathLib α) (sp : List (SplinePoint α)) (i : ℕ) : α :=
  if 0 < i ∧ i < sp.length - 1 then
    let prev := sp.getD (i - 1) ⟨0, 0, 0, 0, 0, 0⟩
    let p := sp.getD i ⟨0, 0, 0, 0, 0, 0⟩
    wrapDiff M (M.atan2 prev.dy prev.dx) (M.atan2 p.dy p.dx) * 10
  else 0

/-- The curvature-based speed factor assigned to sample `i` of `sp`:
`1 − min(curvature, 0.8)`. -/
def splineSpeedAt (M : JsMathLib α) (sp : List (SplinePoint α)) (i : ℕ) : α :=
  1 - min (splineCurvatureAt M sp i) (8 / 10)

/-- The speed-assignment pass of the first `getSplinePoints` variant. -/
def assignSpeeds (M : JsMathLib α) (sp : List (SplinePoint α)) : List (SplinePoint α) :=
  (List.range sp.length).map (fun i =>
    let p := sp.getD i ⟨0, 0, 0, 0, 0, 0⟩
    ⟨p.x, p.y, p.dx, p.dy, p.angle, splineSpeedAt M sp i⟩)

/-- `getSplinePoints` (the Catmull-Rom variant shared by both map/canvas
CircuitEditors): under 2 points each input is returned with speed 1.0;
otherwise samples are generated, speeds assigned, and for open paths the
last control point is appended with the previous sample's speed (or 0 when
there is no sample, via `?.speed || 0`). -/
def getSplinePoints (M : JsMathLib α) (points : List (Pt α)) (segments : ℕ)
    (closed : Bool) : List (SplinePoint α) :=
  if points.length < 2 then points.map (fun p => ⟨p.x, p.y, 0, 0, 0, 1⟩)
  else
    let sp := assignSpeeds M (splineRaw M points segments closed)
    if closed then sp
    else
      let last := points.getD (points.length - 1) ⟨0, 0⟩
      sp ++ [⟨last.x, last.y, 0, 0, 0, ((sp.getLast?).map (fun q => q.speed)).getD 0⟩]

/-- A control point of the second (map-mode) `getSplinePoints` variant,
optionally tagged with a per-point segment intent (`p.type`). -/
structure TaggedPt (α : Type) where
  x : α
  y : α
  type : Option String
deriving DecidableEq

/-- A sample of the tagged variant; the JS objects of its curve branch carry
no `speed` field until the speed pass runs, hence `Option α`. -/
structure TaggedSplinePoint (α : Type) where
  x : α
  y : α
  dx : α
  dy : α
  angle : α
  speed : Option α
deriving DecidableEq

/-- The raw sample list of the tagged `getSplinePoints` variant: spans walk
consecutive pairs of `loopPoints` (`points` plus a wrapped copy of the first
point when closed); a span tagged `'straight'` is linearly interpolated with
`max(5, floor(dist/10))` steps and speed 1.0, other spans are Catmull-Rom
subdivided `segments` times with the speed left unset. -/
def taggedRaw [FloorRing α] (M : JsMathLib α) (points : List (TaggedPt α))
    (segments : ℕ) (closed : Bool) : List (TaggedSplinePoint α) :=
  let d0 : TaggedPt α := ⟨0, 0, none⟩
  let loopPoints := if closed then points ++ [points.getD 0 d0] else points
  (List.range (loopPoints.length - 1)).flatMap (fun i =>
    let p1 := loopPoints.getD i d0
    let p2 := loopPoints.getD (i + 1) d0
    if p1.type = some "straight" then
      let dist := M.hypot (p2.x - p1.x) (p2.y - p1.y)
      let steps := (max 5 ⌊dist / 10⌋).toNat
      (List.range (steps + 1)).filterMap (fun (t : ℕ) =>
        if 0 < t ∨ i = 0 then
          let frac := (t : α) / (steps : α)
          some ⟨p1.x + (p2.x - p1.x) * frac, p1.y + (p2.y - p1.y) * frac,
            p2.x - p1.x, p2.y - p1.y, M.atan2 (p2.y - p1.y) (p2.x - p1.x), some 1⟩
        else none)
    else
      let p0 := if 0 < i then loopPoints.getD (i - 1) d0
        else if closed then loopPoints.getD (loopPoints.length - 2) d0 else p1
      let p3 := if i < loopPoints.length - 2 then loopPoints.getD (i + 2) d0
        else if closed then loopPoints.getD 1 d0 else p2
      (List.range segments).map (fun (t : ℕ) =>
        let e := catmullEval ⟨p0.x, p0.y⟩ ⟨p1.x, p1.y⟩ ⟨p2.x, p2.y⟩ ⟨p3.x, p3.y⟩
          ((t : α) / (segments : α))
        ⟨e.1, e.2.1, e.2.2.1, e.2.2.2, M.atan2 e.2.2.2 e.2.2.1, none⟩))

/-- The curvature of the tagged speed pass at sample `i` (same formula as
`splineCurvatureAt`, over the tagged sample type). -/
def taggedCurvatureAt (M : JsMathLib α) (sp : List (TaggedSplinePoint α)) (i : ℕ) : α :=
  if 0 < i ∧ i < sp.length - 1 then
    let prev := sp.getD (i - 1) ⟨0, 0, 0, 0, 0, none⟩
    let p := sp.getD i ⟨0, 0, 0, 0, 0, none⟩
    wrapDiff M (M.atan2 prev.dy prev.dx) (M.atan2 p.dy p.dx) * 10
  else 0

/-- The speed pass of the tagged variant: samples already carrying speed 1.0
(the straight spans) are skipped, all others receive the curvature-based
factor `1 − min(curvature, 0.8)`. -/
def assignSpeedsTagged (M : JsMathLib α) (sp : List (TaggedSplinePoint α)) :
    List (TaggedSplinePoint α) :=
  (List.range sp.length).map (fun i =>
    let p := sp.getD i ⟨0, 0, 0, 0, 0, none⟩
    if p.speed = some 1 then p
    else ⟨p.x, p.y, p.dx, p.dy, p.angle, some (1 - min (taggedCurvatureAt M sp i) (8 / 10))⟩)

/-- The second `getSplinePoints` variant (map-mode editor, per-point
straight/curve tags): under 2 points each input is returned with speed 1.0,
otherwise the tagged raw samples run through the speed pass; no extra point
is appended for open paths. -/
def getSplinePointsTagged [FloorRing α] (M : JsMathLib α) (points : List (TaggedPt α))
    (segments : ℕ) (closed : Bool) : List (TaggedSplinePoint α) :=
  if points.length < 2 then points.map (fun p => ⟨p.x, p.y, 0, 0, 0, some 1⟩)
  else assignSpeedsTagged M (taggedRaw M points segments closed)

/-- A rigid motion of the plane: rotation by an angle with cosine `co` and
sine `si` (so `co² + si² = 1`) about center `(cx, cy)`, followed by a
translation by `(tx, ty)`.  Modelled from the spec to state the invariance
of `calculateCircuitLength`. -/
def rigidMotion (co si cx cy tx ty : α) (p : Pt α) : Pt α :=
  ⟨co * (p.x - cx) - si * (p.y - cy) + cx + tx,
    si * (p.x - cx) + co * (p.y - cy) + cy + ty⟩

end Engine

section ValidatorLemmas

variable {α : Type} [LinearOrderedField α]

lemma vgStep_issues (M : JsMathLib α) (points : List (Pt α)) (st : VGState α) (i : ℕ) :
    (vgStep M points st i).issues = st.issues ++ (vgIssueAt M points i).toList := by
  unfold vgStep vgIssueAt
  by_cases h : 1 < i
  · simp only [if_pos h, if_neg (by omega : ¬ i ≤ 1)]
    by_cases h2 : turnDiff M points i < 2 <;> simp [h2]
  · simp only [if_neg h, if_pos (by omega : i ≤ 1), Option.toList_none, List.append_nil]

lemma vgStep_totalLength (M : JsMathLib α) (points : List (Pt α)) (st : VGState α) (i : ℕ) :
    (vgStep M points st i).totalLength = st.totalLength + vgDist M points i := by
  unfold vgStep
  by_cases h : 1 < i
  · simp only [if_pos h]
    by_cases h2 : turnDiff M points i < 2 <;> simp [h2]
  · simp [if_neg h]

lemma foldl_vgStep_issues (M : JsMathLib α) (points : List (Pt α)) :
    ∀ (idxs : List ℕ) (st : VGState α),
      (idxs.foldl (vgStep M points) st).issues =
        st.issues ++ idxs.filterMap (vgIssueAt M points)
  | [], st => by simp
  | i :: idxs, st => by
    rw [List.foldl_cons, foldl_vgStep_issues M points idxs, vgStep_issues]
    cases h : vgIssueAt M points i <;>
      simp [List.filterMap_cons, h, List.append_assoc]

lemma foldl_vgStep_totalLength (M : JsMathLib α) (points : List (Pt α)) :
    ∀ (idxs : List ℕ) (st : VGState α),
      (idxs.foldl (vgStep M points) st).totalLength =
        st.totalLength + (idxs.map (vgDist M points)).sum
  | [], st => by simp
  | i :: idxs, st => by
    rw [List.foldl_cons, foldl_vgStep_totalLength M points idxs, vgStep_totalLength]
    simp [add_assoc]

lemma validateGeometry_issues (M : JsMathLib α) (points : List (Pt α)) (closed : Bool) :
    (validateGeometry M points closed).issues =
      (List.range' 1 (points.length - 1)).filterMap (vgIssueAt M points)
      ++ (if totalLen M points < 3000 then [tooShortIssue] else [])
      ++ (if 8000 < totalLen M points then [tooLongIssue] else []) := by
  unfold validateGeometry totalLen
  simp only [foldl_vgStep_issues, foldl_vgStep_totalLength]
  simp

lemma validateGeometry_totalLength (M : JsMathLib α) (points : List (Pt α)) (closed : Bool) :
    (validateGeometry M points closed).stats.totalLength = totalLen M points := by
  unfold validateGeometry totalLen
  simp only [foldl_vgStep_totalLength]
  simp

lemma vgIssueAt_index (M : JsMathLib α) (points : List (Pt α)) (i : ℕ) (iss : VGIssue)
    (h : vgIssueAt M points i = some iss) : iss.index = some i := by
  unfold vgIssueAt at h
  by_cases h1 : i ≤ 1
  · simp [h1] at h
  · simp only [if_neg h1] at h
    by_cases h2 : 160 < turnDiff M points i
    · simp only [if_pos h2, Option.some.injEq] at h
      exact h ▸ rfl
    · simp only [if_neg h2] at h
      by_cases h3 : 120 < turnDiff M points i
      · simp only [if_pos h3, Option.some.injEq] at h
        exact h ▸ rfl
      · simp [h3] at h

lemma turn_issue_not_none (M : JsMathLib α) (points : List (Pt α)) (iss : VGIssue)
    (h : iss ∈ (List.range' 1 (points.length - 1)).filterMap (vgIssueAt M points)) :
    iss.index ≠ none := by
  rcases List.mem_filterMap.mp h with ⟨j, _, hj⟩
  rw [vgIssueAt_index M points j iss hj]
  simp

end ValidatorLemmas

section MoreLemmas

variable {α : Type} [LinearOrderedField α]

lemma mem_if_singleton {c : Prop} [Decidable c] (a b : VGIssue) :
    a ∈ (if c then [b] else []) ↔ c ∧ a = b := by
  by_cases h : c <;> simp [h]

lemma validateGeometry_mem_indexed (M : JsMathLib α) (points : List (Pt α)) (closed : Bool)
    (i : ℕ) (target : VGIssue) (hidx : target.index = some i)
    (hi : 1 ≤ i) (hn : i < points.length) :
    target ∈ (validateGeometry M points closed).issues ↔
      vgIssueAt M points i = some target := by
  rw [validateGeometry_issues]
  simp only [List.mem_append, mem_if_singleton]
  constructor
  · rintro ((h | ⟨_, h⟩) | ⟨_, h⟩)
    · rcases List.mem_filterMap.mp h with ⟨j, _, hje⟩
      have hj := vgIssueAt_index M points j target hje
      have : j = i := by
        rw [hj] at hidx
        exact Option.some.injEq _ _ ▸ hidx
      exact this ▸ hje
    · rw [h] at hidx
      simp [tooShortIssue] at hidx
    · rw [h] at hidx
      simp [tooLongIssue] at hidx
  · intro h
    refine Or.inl (Or.inl (List.mem_filterMap.mpr ⟨i, ?_, h⟩))
    exact List.mem_range'_1.mpr ⟨hi, by omega⟩

lemma vgIssueAt_crit_iff (M : JsMathLib α) (points : List (Pt α)) (i : ℕ) (h2 : 2 ≤ i) :
    vgIssueAt M points i =
      some ⟨"critical", "Impossible sharp turn at point " ++ toString i, some i⟩ ↔
    160 < turnDiff M points i := by
  have hwc : ("warning" : String) ≠ "critical" := by decide
  unfold vgIssueAt
  rw [if_neg (by omega : ¬ i ≤ 1)]
  by_cases h160 : 160 < turnDiff M points i
  · simp [h160]
  · by_cases h120 : 120 < turnDiff M points i <;>
      simp [h160, h120, VGIssue.mk.injEq, hwc]

lemma vgIssueAt_warn_iff (M : JsMathLib α) (points : List (Pt α)) (i : ℕ) (h2 : 2 ≤ i) :
    vgIssueAt M points i =
      some ⟨"warning", "Very tight hairpin at point " ++ toString i, some i⟩ ↔
    120 < turnDiff M points i ∧ turnDiff M points i ≤ 160 := by
  have hcw : ("critical" : String) ≠ "warning" := by decide
  unfold vgIssueAt
  rw [if_neg (by omega : ¬ i ≤ 1)]
  by_cases h160 : 160 < turnDiff M points i
  · simp only [if_pos h160]
    simp [VGIssue.mk.injEq, hcw]
    exact fun _ => h160
  · by_cases h120 : 120 < turnDiff M points i
    · simp [h160, h120, not_lt.mp h160]
    · simp [h160, h120]

lemma buildSegments_getD (M : JsMathLib α) (points : List (Pt α)) (i : ℕ)
    (h1 : 1 ≤ i) (hn : i < points.length) :
    (buildSegments M points).getD (i - 1) ⟨"", "", 0, 0⟩ = segAt M points i := by
  unfold buildSegments
  rw [if_neg (by omega : ¬ points.length < 2)]
  rw [List.getD_eq_getElem?_getD, List.getElem?_map, List.getElem?_range']
  · simp only [Option.map_some', Option.getD_some]
    congr 1
    omega
  · omega

end MoreLemmas

section ClaimTheoremsA

variable {α : Type} [LinearOrderedField α]

/-- Claim C2: whenever the circumcircle determinant of the three sampled
points satisfies `|D| < 1e-5`, `calculateRadius` returns 0 (its guard fires
before any division by `D`), and the segment `buildSegments` derives from
that triple is classified `'straight'` with radius 0. -/
theorem claim_c2_degenerate_radius (M : JsMathLib α) (points : List (Pt α)) (i : ℕ)
    (h1 : 1 ≤ i) (hn : i < points.length)
    (hD : |circumD (points.getD (i - 2) ⟨0, 0⟩) (points.getD (i - 1) ⟨0, 0⟩)
      (points.getD i ⟨0, 0⟩)| < 1 / 100000) :
    calculateRadius M (points.getD (i - 2) ⟨0, 0⟩) (points.getD (i - 1) ⟨0, 0⟩)
      (points.getD i ⟨0, 0⟩) = 0
    ∧ ((buildSegments M points).getD (i - 1) ⟨"", "", 0, 0⟩).type = "straight"
    ∧ ((buildSegments M points).getD (i - 1) ⟨"", "", 0, 0⟩).radius = 0 := by
  have hrad : calculateRadius M (points.getD (i - 2) ⟨0, 0⟩) (points.getD (i - 1) ⟨0, 0⟩)
      (points.getD i ⟨0, 0⟩) = 0 := by
    unfold calculateRadius
    exact if_pos hD
  refine ⟨hrad, ?_, ?_⟩ <;>
  · rw [buildSegments_getD M points i h1 hn]
    simp only [segAt]
    rw [hrad]
    simp

/-- Claim C2 witness: three concrete collinear points. -/
theorem claim_c2_degenerate_radius_witness :
    |circumD (([⟨0, 0⟩, ⟨1, 0⟩, ⟨2, 0⟩] : List (Pt ℚ)).getD 0 ⟨0, 0⟩)
      (([⟨0, 0⟩, ⟨1, 0⟩, ⟨2, 0⟩] : List (Pt ℚ)).getD 1 ⟨0, 0⟩)
      (([⟨0, 0⟩, ⟨1, 0⟩, ⟨2, 0⟩] : List (Pt ℚ)).getD 2 ⟨0, 0⟩)| < 1 / 100000
    ∧ ((buildSegments qMath [⟨0, 0⟩, ⟨1, 0⟩, ⟨2, 0⟩]).getD 1 ⟨"", "", 0, 0⟩).type =
      "straight" := by
  refine ⟨by norm_num [circumD], ?_⟩
  exact (claim_c2_degenerate_radius qMath [⟨0, 0⟩, ⟨1, 0⟩, ⟨2, 0⟩] 2 (by norm_num)
    (by norm_num) (by norm_num [circumD])).2.1

/-- Claim C3: `validateGeometry` pushes the "Track too short" warning exactly
when the accumulated total length is strictly below 3000, and the "Track too
long" warning exactly when it is strictly above 8000; lengths of exactly
3000 or 8000 therefore trigger neither. -/
theorem claim_c3_length_warnings (M : JsMathLib α) (points : List (Pt α)) (closed : Bool) :
    (tooShortIssue ∈ (validateGeometry M points closed).issues ↔
      totalLen M points < 3000)
    ∧ (tooLongIssue ∈ (validateGeometry M points closed).issues ↔
      8000 < totalLen M points) := by
  have hshort : tooShortIssue ∉
      (List.range' 1 (points.length - 1)).filterMap (vgIssueAt M points) :=
    fun h => (turn_issue_not_none M points _ h) rfl
  have hlong : tooLongIssue ∉
      (List.range' 1 (points.length - 1)).filterMap (vgIssueAt M points) :=
    fun h => (turn_issue_not_none M points _ h) rfl
  have hne : tooShortIssue ≠ tooLongIssue := by decide
  have hne' : tooLongIssue ≠ tooShortIssue := by decide
  rw [validateGeometry_issues]
  by_cases hs : totalLen M points < 3000 <;> by_cases hl : 8000 < totalLen M points <;>
    simp [hs, hl, hshort, hlong, hne, hne', List.mem_append]

/-- Claim C4: at every interior point `i` (that is, `2 ≤ i < length`),
`validateGeometry` emits the critical "Impossible sharp turn" issue exactly
when the wrapped heading difference exceeds 160 degrees, and the "Very tight
hairpin" warning exactly when it lies in `(120, 160]`. -/
theorem claim_c4_turn_thresholds (M : JsMathLib α) (points : List (Pt α)) (closed : Bool)
    (i : ℕ) (h2 : 2 ≤ i) (hn : i < points.length) :
    ((⟨"critical", "Impossible sharp turn at point " ++ toString i, some i⟩ : VGIssue) ∈
        (validateGeometry M points closed).issues ↔ 160 < turnDiff M points i)
    ∧ ((⟨"warning", "Very tight hairpin at point " ++ toString i, some i⟩ : VGIssue) ∈
        (validateGeometry M points closed).issues ↔
      120 < turnDiff M points i ∧ turnDiff M points i ≤ 160) := by
  constructor
  · rw [validateGeometry_mem_indexed M points closed i _ rfl (by omega) hn]
    exact vgIssueAt_crit_iff M points i h2
  · rw [validateGeometry_mem_indexed M points closed i _ rfl (by omega) hn]
    exact vgIssueAt_warn_iff M points i h2

/-- Claim C4 witness: concrete points with interior index 2. -/
theorem claim_c4_turn_thresholds_witness :
    2 ≤ 2 ∧ 2 < ([⟨0, 0⟩, ⟨1, 0⟩, ⟨1, 1⟩] : List (Pt ℚ)).length ∧
    ((⟨"critical", "Impossible sharp turn at point " ++ toString 2, some 2⟩ : VGIssue) ∈
        (validateGeometry qMath [⟨0, 0⟩, ⟨1, 0⟩, ⟨1, 1⟩] false).issues ↔
      160 < turnDiff qMath [⟨0, 0⟩, ⟨1, 0⟩, ⟨1, 1⟩] 2) :=
  ⟨by decide, by decide,
    (claim_c4_turn_thresholds qMath [⟨0, 0⟩, ⟨1, 0⟩, ⟨1, 1⟩] false 2
      (by decide) (by decide)).1⟩

/-- Claim C8: the accuracy placeholder returns `85 + r·10` for random draw
`r ∈ [0, 1)`, hence a value inside `[85, 95]`, and it ignores both point
arguments. -/
theorem claim_c8_accuracy_placeholder (r : α) (h0 : 0 ≤ r) (h1 : r < 1)
    (drawn reference drawn' reference' : List (Pt α)) :
    85 ≤ calculateAccuracyScore r drawn reference
    ∧ calculateAccuracyScore r drawn reference ≤ 95
    ∧ calculateAccuracyScore r drawn reference =
      calculateAccuracyScore r drawn' reference' := by
  unfold calculateAccuracyScore
  refine ⟨by nlinarith, by nlinarith, rfl⟩

/-- Claim C8 witness: random draw one half, arbitrary concrete points. -/
theorem claim_c8_accuracy_placeholder_witness :
    (0 : ℚ) ≤ 1 / 2 ∧ (1 : ℚ) / 2 < 1 ∧
    85 ≤ calculateAccuracyScore (1 / 2 : ℚ) [] [⟨3, 4⟩] :=
  ⟨by norm_num, by norm_num,
    (claim_c8_accuracy_placeholder (1 / 2 : ℚ) (by norm_num) (by norm_num)
      [] [⟨3, 4⟩] [⟨5, 6⟩] []).1⟩

/-- Claim C9: `validateGeometry` never reads its `closed` parameter, so the
reports for `closed = true` and `closed = false` coincide on every input. -/
theorem claim_c9_closed_flag_unused (M : JsMathLib α) (points : List (Pt α)) :
    validateGeometry M points true = validateGeometry M points false := rfl

/-- Claim C10: with at least 2 (projected) points, the first segment built by
`buildSegments` is always `seg-1`, classified `'straight'` with radius 0,
because its radius triple duplicates the first point (`max(0, 1-2) = 0`),
which forces the circumcircle determinant to be exactly 0. -/
theorem claim_c10_first_segment_straight (M : JsMathLib α) (points : List (Pt α))
    (h : 2 ≤ points.length) :
    (buildSegments M points).head? = some ⟨"seg-1", "straight",
      M.hypot ((points.getD 1 ⟨0, 0⟩).x - (points.getD 0 ⟨0, 0⟩).x)
        ((points.getD 1 ⟨0, 0⟩).y - (points.getD 0 ⟨0, 0⟩).y), 0⟩ := by
  unfold buildSegments
  rw [if_neg (by omega : ¬ points.length < 2)]
  have hsplit : points.length - 1 = (points.length - 2) + 1 := by omega
  rw [hsplit, List.range'_succ, List.map_cons, List.head?_cons]
  congr 1
  have hD : circumD (points.getD 0 ⟨0, 0⟩) (points.getD 0 ⟨0, 0⟩)
      (points.getD 1 ⟨0, 0⟩) = 0 := by
    unfold circumD
    ring
  have hrad : calculateRadius M (points.getD 0 ⟨0, 0⟩) (points.getD 0 ⟨0, 0⟩)
      (points.getD 1 ⟨0, 0⟩) = 0 := by
    unfold calculateRadius
    rw [hD]
    rw [if_pos (by norm_num)]
  simp only [segAt]
  rw [hrad]
  rw [if_neg (by simp)]
  congr 1

/-- Claim C10 witness: a concrete genuinely-curved point sequence whose first
segment is still reported straight. -/
theorem claim_c10_first_segment_straight_witness :
    2 ≤ ([⟨0, 0⟩, ⟨3, 4⟩, ⟨0, 9⟩] : List (Pt ℚ)).length ∧
    (buildSegments qMath [⟨0, 0⟩, ⟨3, 4⟩, ⟨0, 9⟩]).head? = some ⟨"seg-1", "straight",
      qMath.hypot ((([⟨0, 0⟩, ⟨3, 4⟩, ⟨0, 9⟩] : List (Pt ℚ)).getD 1 ⟨0, 0⟩).x -
          (([⟨0, 0⟩, ⟨3, 4⟩, ⟨0, 9⟩] : List (Pt ℚ)).getD 0 ⟨0, 0⟩).x)
        ((([⟨0, 0⟩, ⟨3, 4⟩, ⟨0, 9⟩] : List (Pt ℚ)).getD 1 ⟨0, 0⟩).y -
          (([⟨0, 0⟩, ⟨3, 4⟩, ⟨0, 9⟩] : List (Pt ℚ)).getD 0 ⟨0, 0⟩).y), 0⟩ :=
  ⟨by decide, claim_c10_first_segment_straight qMath [⟨0, 0⟩, ⟨3, 4⟩, ⟨0, 9⟩] (by decide)⟩

end ClaimTheoremsA

section ClaimC1

variable {α : Type} [LinearOrderedField α]

lemma small_filterMap_nil (M : JsMathLib α) (pts : List (Pt α)) (hp : pts.length < 3) :
    (List.range' 1 (pts.length - 1)).filterMap (vgIssueAt M pts) = [] := by
  have h01 : pts.length - 1 = 0 ∨ pts.length - 1 = 1 := by omega
  rcases h01 with h | h <;> rw [h]
  · rfl
  · simp [List.range'_one, List.filterMap_cons, vgIssueAt]

/-- Claim C1 (amended): with fewer than 3 points, `checkCircuitComplete` and
`isLoopClosed` do return `false` and `validateGeometry` emits no turn issues
(and zero total length below 2 points) — but its `isValid` is not always
`true`: it is `true` exactly when the total length lies in `[3000, 8000]`,
and for 0 or 1 points the zero length makes it `false` with the "Track too
short" warning. -/
theorem claim_c1_small_inputs (M : JsMathLib α) (gpts : List (JsPoint α))
    (pts : List (Pt α)) (closed : Bool) (hg : gpts.length < 3) (hp : pts.length < 3) :
    checkCircuitComplete M gpts = false
    ∧ isLoopClosed M pts = false
    ∧ (∀ iss ∈ (validateGeometry M pts closed).issues, iss.index = none)
    ∧ ((validateGeometry M pts closed).isValid = true ↔
        3000 ≤ totalLen M pts ∧ totalLen M pts ≤ 8000)
    ∧ (pts.length ≤ 1 → (validateGeometry M pts closed).stats.totalLength = 0
        ∧ tooShortIssue ∈ (validateGeometry M pts closed).issues) := by
  have hfm := small_filterMap_nil M pts hp
  refine ⟨?_, ?_, ?_, ?_, ?_⟩
  · unfold checkCircuitComplete
    rw [if_pos hg]
  · unfold isLoopClosed
    rw [if_pos hp]
  · intro iss h
    rw [validateGeometry_issues, hfm, List.nil_append] at h
    rcases List.mem_append.mp h with h | h
    · rcases (mem_if_singleton _ _).mp h with ⟨_, rfl⟩
      rfl
    · rcases (mem_if_singleton _ _).mp h with ⟨_, rfl⟩
      rfl
  · have hv : (validateGeometry M pts closed).isValid =
        ((validateGeometry M pts closed).issues.length == 0) := rfl
    rw [hv, validateGeometry_issues, hfm, List.nil_append]
    by_cases hs : totalLen M pts < 3000
    · refine iff_of_false (by simp [hs]) (fun hc => absurd hs (not_lt.mpr hc.1))
    · by_cases hl : 8000 < totalLen M pts
      · refine iff_of_false (by simp [hs, hl]) (fun hc => absurd hl (not_lt.mpr hc.2))
      · refine iff_of_true (by simp [hs, hl]) ⟨not_lt.mp hs, not_lt.mp hl⟩
  · intro h1
    have h0 : totalLen M pts = 0 := by
      unfold totalLen
      have hz : pts.length - 1 = 0 := by omega
      rw [hz]
      rfl
    refine ⟨by rw [validateGeometry_totalLength]; exact h0, ?_⟩
    rw [validateGeometry_issues, hfm, List.nil_append]
    have hlt : totalLen M pts < 3000 := by
      rw [h0]
      norm_num
    refine List.mem_append.mpr (Or.inl ?_)
    simp [hlt]

/-- Claim C1 counterexample: the empty point sequence has fewer than 3
points, yet `validateGeometry` reports `isValid = false` (the zero total
length triggers the "Track too short" warning), contradicting the claimed
`isValid = true`. -/
theorem claim_c1_counterexample :
    (([] : List (Pt ℚ)).length < 3)
    ∧ (validateGeometry qMath ([] : List (Pt ℚ)) false).isValid = false
    ∧ tooShortIssue ∈ (validateGeometry qMath ([] : List (Pt ℚ)) false).issues := by
  refine ⟨by decide, by decide, by decide⟩

/-- Claim C1 witness: concrete two-point inputs. -/
theorem claim_c1_small_inputs_witness :
    checkCircuitComplete qMath [JsPoint.xy (0 : ℚ) 0, JsPoint.xy 5 5] = false
    ∧ isLoopClosed qMath [(⟨0, 0⟩ : Pt ℚ), ⟨5, 5⟩] = false
    ∧ ((validateGeometry qMath [(⟨0, 0⟩ : Pt ℚ), ⟨5, 5⟩] false).isValid = true ↔
        3000 ≤ totalLen qMath [(⟨0, 0⟩ : Pt ℚ), ⟨5, 5⟩]
        ∧ totalLen qMath [(⟨0, 0⟩ : Pt ℚ), ⟨5, 5⟩] ≤ 8000) :=
  ⟨(claim_c1_small_inputs qMath [JsPoint.xy (0 : ℚ) 0, JsPoint.xy 5 5]
      [(⟨0, 0⟩ : Pt ℚ), ⟨5, 5⟩] false (by decide) (by decide)).1,
   (claim_c1_small_inputs qMath [JsPoint.xy (0 : ℚ) 0, JsPoint.xy 5 5]
      [(⟨0, 0⟩ : Pt ℚ), ⟨5, 5⟩] false (by decide) (by decide)).2.1,
   (claim_c1_small_inputs qMath [JsPoint.xy (0 : ℚ) 0, JsPoint.xy 5 5]
      [(⟨0, 0⟩ : Pt ℚ), ⟨5, 5⟩] false (by decide) (by decide)).2.2.2.1⟩

end ClaimC1

section ClaimC6C7

lemma foldl_add_sum {α : Type} [AddCommMonoid α] {β : Type} (f : β → α) :
    ∀ (l : List β) (a : α), l.foldl (fun acc x => acc + f x) a = a + (l.map f).sum
  | [], a => by simp
  | x :: l, a => by
    rw [List.foldl_cons, foldl_add_sum f l, List.map_cons, List.sum_cons, add_assoc]

lemma calculateCircuitLength_eq_sum {α : Type} [LinearOrderedField α]
    (M : JsMathLib α) (points : List (Pt α)) :
    calculateCircuitLength M points =
      ((points.zip points.tail).map
        (fun pq => M.hypot (pq.2.x - pq.1.x) (pq.2.y - pq.1.y))).sum := by
  unfold calculateCircuitLength
  rw [foldl_add_sum]
  exact zero_add _

/-- Claim C6: with the real math functions, the haversine self-distance of
any geodetic point is 0, and projecting a point relative to itself as origin
yields `(0, 0)`. -/
theorem claim_c6_self_distance_zero (lat lng : ℝ) :
    getDistanceMeters
      (⟨Real.pi, Real.sqrt, Real.sin, Real.cos, fun y x => Complex.arg ⟨x, y⟩,
        fun a b => Real.sqrt (a * a + b * b)⟩ : JsMathLib ℝ) lat lng lat lng = 0
    ∧ latLonToMeters
      (⟨Real.pi, Real.sqrt, Real.sin, Real.cos, fun y x => Complex.arg ⟨x, y⟩,
        fun a b => Real.sqrt (a * a + b * b)⟩ : JsMathLib ℝ) lat lng lat lng =
      ⟨0, 0⟩ := by
  have harg : Complex.arg ⟨(1 : ℝ), (0 : ℝ)⟩ = 0 := by
    have hone : (⟨(1 : ℝ), (0 : ℝ)⟩ : ℂ) = 1 := by
      apply Complex.ext <;> simp
    rw [hone, Complex.arg_one]
  have hdist : ∀ a b : ℝ, getDistanceMeters
      (⟨Real.pi, Real.sqrt, Real.sin, Real.cos, fun y x => Complex.arg ⟨x, y⟩,
        fun a b => Real.sqrt (a * a + b * b)⟩ : JsMathLib ℝ) a b a b = 0 := by
    intro a b
    unfold getDistanceMeters
    norm_num [harg]
  refine ⟨hdist lat lng, ?_⟩
  simp [latLonToMeters, hdist]

/-- Claim C7: `calculateCircuitLength` (with the real `Math.hypot`) is
invariant under every rigid motion — any rotation (cosine `co`, sine `si`)
about any center combined with any translation — applied to all points. -/
theorem claim_c7_rigid_invariance (co si cx cy tx ty : ℝ) (h : co ^ 2 + si ^ 2 = 1)
    (points : List (Pt ℝ)) :
    calculateCircuitLength
      (⟨Real.pi, Real.sqrt, Real.sin, Real.cos, fun y x => Complex.arg ⟨x, y⟩,
        fun a b => Real.sqrt (a * a + b * b)⟩ : JsMathLib ℝ)
      (points.map (rigidMotion co si cx cy tx ty)) =
    calculateCircuitLength
      (⟨Real.pi, Real.sqrt, Real.sin, Real.cos, fun y x => Complex.arg ⟨x, y⟩,
        fun a b => Real.sqrt (a * a + b * b)⟩ : JsMathLib ℝ) points := by
  rw [calculateCircuitLength_eq_sum, calculateCircuitLength_eq_sum]
  congr 1
  rw [← List.map_tail, List.zip_map, List.map_map]
  refine List.map_congr_left ?_
  intro pq _
  rcases pq with ⟨p, q⟩
  show Real.sqrt _ = Real.sqrt _
  congr 1
  simp only [Prod.map, rigidMotion]
  linear_combination ((q.x - p.x) ^ 2 + (q.y - p.y) ^ 2) * h

/-- Claim C7 witness: a quarter rotation about `(5, 6)` plus translation
`(7, 8)` applied to a concrete two-point path. -/
theorem claim_c7_rigid_invariance_witness :
    (0 : ℝ) ^ 2 + 1 ^ 2 = 1 ∧
    calculateCircuitLength
      (⟨Real.pi, Real.sqrt, Real.sin, Real.cos, fun y x => Complex.arg ⟨x, y⟩,
        fun a b => Real.sqrt (a * a + b * b)⟩ : JsMathLib ℝ)
      (([⟨0, 0⟩, ⟨3, 4⟩] : List (Pt ℝ)).map (rigidMotion 0 1 5 6 7 8)) =
    calculateCircuitLength
      (⟨Real.pi, Real.sqrt, Real.sin, Real.cos, fun y x => Complex.arg ⟨x, y⟩,
        fun a b => Real.sqrt (a * a + b * b)⟩ : JsMathLib ℝ) [⟨0, 0⟩, ⟨3, 4⟩] :=
  ⟨by norm_num, claim_c7_rigid_invariance 0 1 5 6 7 8 (by norm_num) [⟨0, 0⟩, ⟨3, 4⟩]⟩

end ClaimC6C7

section ClaimC5

variable {α : Type} [LinearOrderedField α]

lemma wrapDiff_nonneg (M : JsMathLib α) (hpi : 0 ≤ M.pi)
    (hatan : ∀ y x, |M.atan2 y x| ≤ M.pi) (y1 x1 y2 x2 : α) :
    0 ≤ wrapDiff M (M.atan2 y1 x1) (M.atan2 y2 x2) := by
  have h1 := abs_le.mp (hatan y1 x1)
  have h2 := abs_le.mp (hatan y2 x2)
  unfold wrapDiff
  split
  · have habs : |M.atan2 y1 x1 - M.atan2 y2 x2| ≤ 2 * M.pi :=
      abs_sub_le_iff.mpr ⟨by linarith, by linarith⟩
    linarith
  · exact abs_nonneg _

lemma splineCurvatureAt_nonneg (M : JsMathLib α) (hpi : 0 ≤ M.pi)
    (hatan : ∀ y x, |M.atan2 y x| ≤ M.pi) (sp : List (SplinePoint α)) (i : ℕ) :
    0 ≤ splineCurvatureAt M sp i := by
  unfold splineCurvatureAt
  split
  · exact mul_nonneg (wrapDiff_nonneg M hpi hatan _ _ _ _) (by norm_num)
  · exact le_rfl

lemma taggedCurvatureAt_nonneg (M : JsMathLib α) (hpi : 0 ≤ M.pi)
    (hatan : ∀ y x, |M.atan2 y x| ≤ M.pi) (sp : List (TaggedSplinePoint α)) (i : ℕ) :
    0 ≤ taggedCurvatureAt M sp i := by
  unfold taggedCurvatureAt
  split
  · exact mul_nonneg (wrapDiff_nonneg M hpi hatan _ _ _ _) (by norm_num)
  · exact le_rfl

lemma splineSpeedAt_bounds (M : JsMathLib α) (hpi : 0 ≤ M.pi)
    (hatan : ∀ y x, |M.atan2 y x| ≤ M.pi) (sp : List (SplinePoint α)) (i : ℕ) :
    1 / 5 ≤ splineSpeedAt M sp i ∧ splineSpeedAt M sp i ≤ 1 := by
  have hc := splineCurvatureAt_nonneg M hpi hatan sp i
  unfold splineSpeedAt
  constructor
  · have hmin : min (splineCurvatureAt M sp i) (8 / 10) ≤ (8 / 10 : α) := min_le_right _ _
    linarith
  · have hmin : (0 : α) ≤ min (splineCurvatureAt M sp i) (8 / 10) :=
      le_min hc (by norm_num)
    linarith

lemma assignSpeeds_bounds (M : JsMathLib α) (hpi : 0 ≤ M.pi)
    (hatan : ∀ y x, |M.atan2 y x| ≤ M.pi) (sp : List (SplinePoint α)) :
    ∀ q ∈ assignSpeeds M sp, 1 / 5 ≤ q.speed ∧ q.speed ≤ 1 := by
  intro q hq
  unfold assignSpeeds at hq
  rcases List.mem_map.mp hq with ⟨i, _, rfl⟩
  exact splineSpeedAt_bounds M hpi hatan sp i

lemma assignSpeedsTagged_bounds (M : JsMathLib α) (hpi : 0 ≤ M.pi)
    (hatan : ∀ y x, |M.atan2 y x| ≤ M.pi) (sp : List (TaggedSplinePoint α)) :
    ∀ q ∈ assignSpeedsTagged M sp, ∃ s, q.speed = some s ∧ 1 / 5 ≤ s ∧ s ≤ 1 := by
  intro q hq
  unfold assignSpeedsTagged at hq
  rcases List.mem_map.mp hq with ⟨i, _, rfl⟩
  by_cases h : (sp.getD i ⟨0, 0, 0, 0, 0, none⟩).speed = some 1
  · refine ⟨1, ?_, by norm_num, le_rfl⟩
    simp only [if_pos h]
    exact h
  · refine ⟨1 - min (taggedCurvatureAt M sp i) (8 / 10), ?_, ?_, ?_⟩
    · simp only [if_neg h]
    · have hmin : min (taggedCurvatureAt M sp i) (8 / 10) ≤ (8 / 10 : α) :=
        min_le_right _ _
      linarith
    · have hmin : (0 : α) ≤ min (taggedCurvatureAt M sp i) (8 / 10) :=
        le_min (taggedCurvatureAt_nonneg M hpi hatan sp i) (by norm_num)
      linarith

lemma getD_zero_mem_of_ne_nil {γ : Type} (l : List γ) (d : γ) (h : l ≠ []) :
    l.getD 0 d ∈ l := by
  cases l with
  | nil => exact absurd rfl h
  | cons a l => exact List.mem_cons_self a l

lemma assignSpeeds_length (M : JsMathLib α) (sp : List (SplinePoint α)) :
    (assignSpeeds M sp).length = sp.length := by
  unfold assignSpeeds
  simp

lemma splineSpan_length (M : JsMathLib α) (pts : List (Pt α)) (segments i : ℕ) :
    (splineSpan M pts segments i).length = segments := by
  unfold splineSpan
  rw [List.length_map, List.length_range]

lemma splineRaw_length (M : JsMathLib α) (points : List (Pt α)) (segments : ℕ)
    (closed : Bool) :
    (splineRaw M points segments closed).length =
      ((splineControl points closed).length - 3) * segments := by
  unfold splineRaw
  rw [List.length_flatMap]
  have hc : List.length ∘ splineSpan M (splineControl points closed) segments =
      fun _ => segments :=
    funext fun i => splineSpan_length M (splineControl points closed) segments i
  rw [hc, List.map_const', List.sum_replicate, smul_eq_mul, List.length_range']

lemma splineControl_length_open (points : List (Pt α)) :
    (splineControl points false).length = points.length + 2 := by
  unfold splineControl
  simp

/-- Claim C5 (amended): for every subdivision count of at least 1 — the
source's defaults are 20 and 24 — and any math library whose `atan2` stays
within `[-pi, pi]`, every sample produced by the Catmull-Rom
`getSplinePoints` carries a speed factor in `[0.2, 1.0]`; the same holds for
every sample of the tagged map-mode variant.  (With subdivision count 0 the
first variant emits a final sample of speed 0, which refutes the original
claim.) -/
theorem claim_c5_speed_factor_bounds {β : Type} [LinearOrderedField β] [FloorRing β]
    (M : JsMathLib β) (hpi : 0 ≤ M.pi) (hatan : ∀ y x, |M.atan2 y x| ≤ M.pi) :
    (∀ (points : List (Pt β)) (segments : ℕ) (closed : Bool), 1 ≤ segments →
      ∀ p ∈ getSplinePoints M points segments closed,
        1 / 5 ≤ p.speed ∧ p.speed ≤ 1)
    ∧ (∀ (points : List (TaggedPt β)) (segments : ℕ) (closed : Bool), 1 ≤ segments →
      ∀ p ∈ getSplinePointsTagged M points segments closed,
        ∃ s, p.speed = some s ∧ 1 / 5 ≤ s ∧ s ≤ 1) := by
  constructor
  · intro points segments closed hseg p hp
    unfold getSplinePoints at hp
    by_cases hlen : points.length < 2
    · rw [if_pos hlen] at hp
      rcases List.mem_map.mp hp with ⟨q, _, rfl⟩
      exact ⟨by norm_num, le_rfl⟩
    · rw [if_neg hlen] at hp
      cases closed with
      | true => exact assignSpeeds_bounds M hpi hatan _ p hp
      | false =>
        rw [if_neg Bool.false_ne_true] at hp
        rcases List.mem_append.mp hp with hp | hp
        · exact assignSpeeds_bounds M hpi hatan _ p hp
        · have hpe := List.mem_singleton.mp hp
          have hnil : assignSpeeds M (splineRaw M points segments false) ≠ [] := by
            intro hn
            have hl := assignSpeeds_length M (splineRaw M points segments false)
            rw [hn, splineRaw_length, splineControl_length_open] at hl
            have : points.length + 2 - 3 = 0 ∨ segments = 0 :=
              Nat.mul_eq_zero.mp hl.symm
            omega
          have hq : (assignSpeeds M (splineRaw M points segments false)).getLast? =
              some ((assignSpeeds M (splineRaw M points segments false)).getLast hnil) :=
            List.getLast?_eq_getLast_of_ne_nil hnil
          have hqmem : (assignSpeeds M (splineRaw M points segments false)).getLast hnil ∈
              assignSpeeds M (splineRaw M points segments false) :=
            List.getLast_mem hnil
          have hb := assignSpeeds_bounds M hpi hatan _ _ hqmem
          rw [hpe]
          simpa [hq] using hb
  · intro points segments closed hseg p hp
    unfold getSplinePointsTagged at hp
    by_cases hlen : points.length < 2
    · rw [if_pos hlen] at hp
      rcases List.mem_map.mp hp with ⟨q, _, rfl⟩
      exact ⟨1, rfl, by norm_num, le_rfl⟩
    · rw [if_neg hlen] at hp
      exact assignSpeedsTagged_bounds M hpi hatan _ p hp

/-- Claim C5 counterexample: with subdivision count 0, an open two-point path
makes the Catmull-Rom `getSplinePoints` emit exactly one sample, whose speed
factor is 0 (`?.speed || 0` on an empty sample list), outside `[0.2, 1.0]`. -/
theorem claim_c5_counterexample :
    ((getSplinePoints qMath [⟨0, 0⟩, ⟨1, 0⟩] 0 false).map (fun p => p.speed) = [(0 : ℚ)])
    ∧ ¬ (1 / 5 : ℚ) ≤ 0 :=
  ⟨by decide, by norm_num⟩

/-- Claim C5 witness: concrete two-point inputs with subdivision count 1. -/
theorem claim_c5_speed_factor_bounds_witness :
    (1 / 5 ≤ ((getSplinePoints qMath [⟨0, 0⟩, ⟨24, 0⟩] 1 false).getD 0
      ⟨0, 0, 0, 0, 0, 0⟩).speed
    ∧ ((getSplinePoints qMath [⟨0, 0⟩, ⟨24, 0⟩] 1 false).getD 0
      ⟨0, 0, 0, 0, 0, 0⟩).speed ≤ 1)
    ∧ (((getSplinePointsTagged qMath [⟨0, 0, none⟩, ⟨24, 0, none⟩] 1
      false).getD 0 ⟨0, 0, 0, 0, 0, none⟩).speed).isSome = true := by
  constructor
  · exact (claim_c5_speed_factor_bounds qMath (by norm_num [qMath])
      (fun y x => by norm_num [qMath])).1 [⟨0, 0⟩, ⟨24, 0⟩] 1 false le_rfl
      ((getSplinePoints qMath [⟨0, 0⟩, ⟨24, 0⟩] 1 false).getD 0 ⟨0, 0, 0, 0, 0, 0⟩)
      (getD_zero_mem_of_ne_nil _ _ (by decide))
  · obtain ⟨s, hs, -, -⟩ := (claim_c5_speed_factor_bounds qMath (by norm_num [qMath])
      (fun y x => by norm_num [qMath])).2 [⟨0, 0, none⟩, ⟨24, 0, none⟩] 1 false
      le_rfl ((getSplinePointsTagged qMath [⟨0, 0, none⟩, ⟨24, 0, none⟩] 1
        false).getD 0 ⟨0, 0, 0, 0, 0, none⟩) (getD_zero_mem_of_ne_nil _ _ (by decide))
    rw [hs]
    rfl

end ClaimC5
